import Mathlib

/-!
Shallow embedding of the rhoai-cluster-monitor server
(`src/cluster_monitor_mcp/server.py`, `src/cluster_monitor_mcp/k8s/client.py`).

Python dict lookups with a default (`d.get(k, v)`) are modelled as
`Option`-valued record fields read with `Option.getD`; a key that is absent
from the returned dict is `none`.  Python exceptions from the remote store
are modelled as the `Except.error` branch of the response value that each
resource-client operation consumes.
-/

namespace ClusterMonitor

/-- A status condition entry `{type, status, reason}`; each key may be
absent, `condition.get(k)` is `none` then. -/
structure Condition where
  ctype : Option String
  status : Option String
  reason : Option String
deriving DecidableEq, Repr

/-- A ClusterClaim record: the fields of the raw object that
`server.py` reads. `specNamespace` models `spec.namespace`. -/
structure ClusterClaim where
  name : Option String
  owner : Option String
  clusterPoolName : Option String
  specNamespace : Option String
  conditions : List Condition
deriving DecidableEq, Repr

/-- A ClusterDeployment record: the fields of the raw object that
`server.py` reads.  `platformKeys` models the key list of the
`spec.platform` descriptor map (empty when the map is absent or empty);
`depNamespace` models `metadata.namespace`. -/
structure ClusterDeployment where
  name : Option String
  depNamespace : Option String
  uid : Option String
  clusterPlatform : Option String
  clusterRegion : Option String
  versionLabel : Option String
  powerState : Option String
  platformKeys : List String
  conditions : List Condition
  apiURL : Option String
  infraID : Option String
deriving DecidableEq, Repr

/-- The per-cluster info dict built by `extract_cluster_info` /
`extract_ibm_cluster_info`.  Keys that a code path may leave out of the
dict are `Option`-valued and `none` exactly when the key is absent. -/
structure ClusterView where
  name : String
  owner : Option String
  pool : String
  viewNamespace : String
  clusterNamespace : String
  pending : String
  platform : Option String
  region : Option String
  version : Option String
  state : Option String
  power_state : Option String
  api_url : Option String
  console_url : Option String
  infra_id : Option String
  cluster_id : Option String
deriving DecidableEq, Repr

/-! ## State resolution (server.py lines 117-137 and 202-220) -/

/-- The recognised `(type, status)` pairs checked for one condition, in the
order of the `if`/`elif` chain inside the loop body. -/
def condState (c : Condition) : Option String :=
  if c.ctype = some "Hibernating" ∧ c.status = some "True" then some "Hibernating"
  else if c.ctype = some "Ready" ∧ c.status = some "True" then some "Running"
  else if c.ctype = some "ProvisionStopped" ∧ c.status = some "True" then some "ProvisionStopped"
  else if c.ctype = some "Resuming" ∧ c.status = some "True" then some "Resuming"
  else none

/-- The `for condition in conditions` loop: starts at `"Unknown"`, breaks at
the first condition matching a recognised pair. -/
def scanConditions : List Condition → String
  | [] => "Unknown"
  | c :: rest =>
    match condState c with
    | some s => s
    | none => scanConditions rest

/-- Models `state = "Unknown"`, the scan loop, then
`if state == "Unknown": state = power_state`. -/
def resolveState (conditions : List Condition) (power_state : String) : String :=
  let state := scanConditions conditions
  if state = "Unknown" then power_state else state

/-! ## Console URL derivation (server.py lines 143-153 and 226-233)

Python `str.split(sep)` (non-empty separator) and `str.join` are modelled
over the character list of the string. -/

/-- Python `s.split(sep)` for a one-character separator `sep = [c]`:
split at each occurrence of `c`. -/
def pySplit1 (c : Char) : List Char → List (List Char)
  | [] => [[]]
  | a :: rest =>
    if a = c then [] :: pySplit1 c rest
    else
      match pySplit1 c rest with
      | [] => [[a]]
      | chunk :: more => (a :: chunk) :: more

/-- Python `s.split(sep)` for a two-character separator `sep = [c0, c1]`:
split at each leftmost non-overlapping occurrence of the separator. -/
def pySplit2 (c0 c1 : Char) : List Char → List (List Char)
  | [] => [[]]
  | [a] => [[a]]
  | a :: b :: rest =>
    if a = c0 ∧ b = c1 then [] :: pySplit2 c0 c1 rest
    else
      match pySplit2 c0 c1 (b :: rest) with
      | [] => [[a]]
      | chunk :: more => (a :: chunk) :: more

/-- Python `sep.join(parts)` for a one-character separator. -/
def joinSep (c : Char) : List (List Char) → List Char
  | [] => []
  | [x] => x
  | x :: y :: rest => x ++ c :: joinSep c (y :: rest)

/-- Models `console_url = "N/A"` then, when `api_url != "N/A"`, the guarded
derivation: `api_url.split("//")[1].split(":")[0]` is the host, the host
minus its first `.`-label is the cluster domain, and only the `IndexError`
of `[1]` (no `"//"` in the string) is caught by the `except`. -/
def deriveConsoleURL (api_url : String) : String :=
  if api_url = "N/A" then "N/A"
  else
    match (pySplit2 '/' '/' api_url.data).drop 1 with
    | [] => "N/A"
    | d :: _ =>
      let api_domain := (pySplit1 ':' d).headD []
      let cluster_domain := joinSep '.' ((pySplit1 '.' api_domain).drop 1)
      "https://console-openshift-console.apps." ++ String.mk cluster_domain

/-! ## Cluster-view builders (server.py lines 71-167 and 170-250) -/

/-- Models `extract_cluster_info(clusterclaim, clusterdeployment)`: the base dict is
built from the claim; the deployment-derived keys are added only inside
`if clusterdeployment:`. -/
def extract_cluster_info (clusterclaim : ClusterClaim)
    (clusterdeployment : Option ClusterDeployment) : ClusterView :=
  let claim_name := clusterclaim.name.getD "unknown"
  let cluster_namespace := clusterclaim.specNamespace.getD "N/A"
  let owner := clusterclaim.owner.getD ""
  let pending :=
    match clusterclaim.conditions with
    | [] => "Unknown"
    | c :: _ => c.reason.getD "Unknown"
  let base : ClusterView :=
    { name := claim_name
      owner := some owner
      pool := clusterclaim.clusterPoolName.getD "N/A"
      viewNamespace := "rhoai"
      clusterNamespace := cluster_namespace
      pending := pending
      platform := none, region := none, version := none, state := none
      power_state := none, api_url := none, console_url := none
      infra_id := none, cluster_id := none }
  match clusterdeployment with
  | none => base
  | some cd =>
    let platform := cd.clusterPlatform.getD "unknown"
    let region := cd.clusterRegion.getD "unknown"
    let version := cd.versionLabel.getD "unknown"
    let power_state := cd.powerState.getD "Unknown"
    let state := resolveState cd.conditions power_state
    let api_url := cd.apiURL.getD "N/A"
    let console_url := deriveConsoleURL api_url
    { base with
      platform := some platform
      region := some region
      version := some version
      state := some state
      power_state := some power_state
      api_url := some api_url
      console_url := some console_url
      infra_id := some (cd.infraID.getD "N/A")
      cluster_id := some (cd.uid.getD "N/A") }

/-- Models `extract_ibm_cluster_info(clusterdeployment)`: the platform label is
used when truthy, otherwise the first key of the `spec.platform` map,
otherwise `"unknown"`. -/
def extract_ibm_cluster_info (cd : ClusterDeployment) : ClusterView :=
  let cluster_name := cd.name.getD "unknown"
  let platform :=
    match cd.clusterPlatform with
    | some p => if p = "" then cd.platformKeys.headD "unknown" else p
    | none => cd.platformKeys.headD "unknown"
  let region := cd.clusterRegion.getD "unknown"
  let version := cd.versionLabel.getD "unknown"
  let power_state := cd.powerState.getD "Unknown"
  let state := resolveState cd.conditions power_state
  let api_url := cd.apiURL.getD "N/A"
  let console_url := deriveConsoleURL api_url
  { name := cluster_name
    owner := none
    pool := "N/A (IBM - no pool)"
    viewNamespace := cd.depNamespace.getD "rhoai"
    clusterNamespace := cd.depNamespace.getD "rhoai"
    pending := "N/A (IBM)"
    platform := some platform
    region := some region
    version := some version
    state := some state
    power_state := some power_state
    api_url := some api_url
    console_url := some console_url
    infra_id := some (cd.infraID.getD "N/A")
    cluster_id := some (cd.uid.getD "N/A") }

example :
    deriveConsoleURL "https://api.foo.bar.example.com:6443"
      = "https://console-openshift-console.apps.foo.bar.example.com" := by decide

example : deriveConsoleURL "not-a-url" = "N/A" := by decide

example : deriveConsoleURL "https://localhost:6443"
    = "https://console-openshift-console.apps." := by decide

example : resolveState [⟨some "Ready", some "True", none⟩,
    ⟨some "Hibernating", some "True", none⟩] "PS" = "Running" := by decide

/-! ## Resource Client (k8s/client.py)

Each operation consumes the remote store's response for its one API call:
`Except.error` models a raised `ApiException`, and on success the optional
`"items"` list models `result.get("items", [])`. -/

/-- A raised `kubernetes.client.rest.ApiException` (e.g. 403). -/
structure ApiException where
  code : Nat
deriving DecidableEq, Repr

/-- A ClusterPool object; its content is not read by the server code. -/
structure ClusterPool where
  poolUid : String
deriving DecidableEq, Repr

/-- Models `HiveClusterClient.get_clusterclaims`: `result.get("items", [])` on
success, `[]` on `ApiException`. -/
def get_clusterclaims (resp : Except ApiException (Option (List ClusterClaim))) :
    List ClusterClaim :=
  match resp with
  | .ok result => result.getD []
  | .error _ => []

/-- Models `HiveClusterClient.get_clusterdeployments` (namespaced). -/
def get_clusterdeployments (resp : Except ApiException (Option (List ClusterDeployment))) :
    List ClusterDeployment :=
  match resp with
  | .ok result => result.getD []
  | .error _ => []

/-- Models `HiveClusterClient.get_all_clusterdeployments` (cluster-scoped). -/
def get_all_clusterdeployments (resp : Except ApiException (Option (List ClusterDeployment))) :
    List ClusterDeployment :=
  match resp with
  | .ok result => result.getD []
  | .error _ => []

/-- Models `HiveClusterClient.get_clusterpool`: the object on success, `None` on
`ApiException` (permission denied or not found). -/
def get_clusterpool (resp : Except ApiException ClusterPool) : Option ClusterPool :=
  match resp with
  | .ok result => some result
  | .error _ => none

/-- The remote store's behaviour during one query: the response to each
API call the server can make. `depsResp ns` answers the namespaced
deployment listing for namespace `ns`. -/
structure HiveEnv where
  claimsResp : Except ApiException (Option (List ClusterClaim))
  allDepsResp : Except ApiException (Option (List ClusterDeployment))
  depsResp : String → Except ApiException (Option (List ClusterDeployment))

/-! ## Aggregator (server.py lines 34-68) -/

/-- Fast path: index every returned deployment by its own
`metadata.namespace`, last write wins. -/
def indexByNamespace (all_deployments : List ClusterDeployment) :
    String → Option ClusterDeployment :=
  all_deployments.foldl
    (fun m dep =>
      let ns := dep.depNamespace.getD ""
      if ns ≠ "" then fun k => if k = ns then some dep else m k else m)
    (fun _ => none)

/-- Fallback loop over the claims: one `get_clusterdeployments(ns)` call per
claim whose `spec.namespace` is non-empty and not yet a key of the map; the
namespace is added to the map only when the call returns a non-empty list.
Returns the final map together with the list of namespaces passed to the
per-namespace call, in call order. -/
def fallbackFetch (fetchNs : String → List ClusterDeployment) :
    List ClusterClaim → (String → Option ClusterDeployment) →
    (String → Option ClusterDeployment) × List String
  | [], m => (m, [])
  | claim :: rest, m =>
    let cluster_namespace := claim.specNamespace.getD ""
    if cluster_namespace ≠ "" ∧ (m cluster_namespace) = none then
      match fetchNs cluster_namespace with
      | [] =>
        let r := fallbackFetch fetchNs rest m
        (r.1, cluster_namespace :: r.2)
      | dep :: _ =>
        let r := fallbackFetch fetchNs rest
          (fun k => if k = cluster_namespace then some dep else m k)
        (r.1, cluster_namespace :: r.2)
    else fallbackFetch fetchNs rest m

/-- The tuple returned by `get_all_cluster_data`, plus the list of
namespaces the fallback loop passed to the per-namespace call
(instrumentation needed to state the call-count property). -/
structure ClusterData where
  clusterclaims : List ClusterClaim
  deployments_by_namespace : String → Option ClusterDeployment
  ibm_clusters : List ClusterDeployment
  fallback_calls : List String

/-- Models `get_all_cluster_data(client)`: claims from `"rhoai"`, the cluster-wide
fast path, the fallback loop when it returned empty, and the IBM
deployments from `"rhoai"`. -/
def get_all_cluster_data (env : HiveEnv) : ClusterData :=
  let clusterclaims := get_clusterclaims env.claimsResp
  let all_deployments := get_all_clusterdeployments env.allDepsResp
  let ibm_clusters := get_clusterdeployments (env.depsResp "rhoai")
  if all_deployments.isEmpty then
    let r := fallbackFetch (fun ns => get_clusterdeployments (env.depsResp ns))
      clusterclaims (fun _ => none)
    { clusterclaims := clusterclaims
      deployments_by_namespace := r.1
      ibm_clusters := ibm_clusters
      fallback_calls := r.2 }
  else
    { clusterclaims := clusterclaims
      deployments_by_namespace := indexByNamespace all_deployments
      ibm_clusters := ibm_clusters
      fallback_calls := [] }

/-- The distinct non-empty `spec.namespace` values referenced by a claim
list. -/
def distinctTargetNamespaces (claims : List ClusterClaim) : List String :=
  ((claims.map (fun c => c.specNamespace.getD "")).filter (fun ns => ns != "")).dedup

/-! ## Query layer: list_all_clusters (server.py lines 254-322) -/

/-- The five optional filter parameters of `list_all_clusters`. -/
structure ListFilters where
  platform_filter : Option String
  name_filter : Option String
  state_filter : Option String
  region_filter : Option String
  owner_filter : Option String
deriving DecidableEq, Repr

/-- All filter parameters left at their `None` default. -/
def noFilters : ListFilters := ⟨none, none, none, none, none⟩

/-- Python `needle in hay` on character lists: `needle` occurs as a
contiguous run somewhere in `hay`. -/
def listContains (needle : List Char) : List Char → Bool
  | [] => needle.isEmpty
  | a :: rest => needle.isPrefixOf (a :: rest) || listContains needle rest

/-- Python `needle in hay` on strings. -/
def pyContains (hay needle : String) : Bool :=
  listContains needle.data hay.data

/-- Python `s.lower()` (ASCII case mapping, the range used by the data). -/
def pyLower (s : String) : String := String.mk (s.data.map Char.toLower)

/-- The whitespace characters stripped by Python `str.strip()` (ASCII
subset). -/
def isPySpace (c : Char) : Bool :=
  c = ' ' || c = '\t' || c = '\n' || c = '\r' || c = '\x0b' || c = '\x0c'

/-- Python `s.strip()`. -/
def pyStrip (s : String) : String :=
  String.mk ((s.data.dropWhile isPySpace).reverse.dropWhile isPySpace).reverse

/-- Python `s.startswith(pre)`. -/
def pyStartsWith (s pre : String) : Bool := pre.data.isPrefixOf s.data

/-- One `if <filter>:` block: a `None` or empty filter string leaves the
list unchanged, otherwise keep the clusters whose field contains the
lowercased filter as a substring (case-insensitive). -/
def applyFilter (clusters : List ClusterView) (filt : Option String)
    (field : ClusterView → String) : List ClusterView :=
  match filt with
  | none => clusters
  | some f =>
    if f = "" then clusters
    else clusters.filter (fun c => pyContains (pyLower (field c)) (pyLower f))

/-- The two build loops of `list_all_clusters`: one view per claim with a
non-empty `spec.namespace` (joined with its deployment when the map has
one), then one view per IBM deployment. -/
def build_all_clusters (clusterclaims : List ClusterClaim)
    (deployments_by_namespace : String → Option ClusterDeployment)
    (ibm_clusters : List ClusterDeployment) : List ClusterView :=
  (clusterclaims.filterMap (fun claim =>
      let cluster_namespace := claim.specNamespace.getD ""
      if cluster_namespace ≠ "" then
        some (extract_cluster_info claim (deployments_by_namespace cluster_namespace))
      else none))
    ++ ibm_clusters.map extract_ibm_cluster_info

/-- Sort key of `filtered_clusters.sort(key=lambda x: x.get("name", ""))`. -/
def byName (a b : ClusterView) : Prop := a.name ≤ b.name

instance : DecidableRel byName := fun a b => inferInstanceAs (Decidable (a.name ≤ b.name))

instance : IsTotal ClusterView byName := ⟨fun a b => le_total a.name b.name⟩

instance : IsTrans ClusterView byName := ⟨fun _ _ _ h1 h2 => le_trans h1 h2⟩

/-- The structured response of `list_all_clusters`: full records when
`include_details`, otherwise the name list. -/
inductive ListClustersResult where
  | detailed (total : Nat) (clusters : List ClusterView)
  | namesOnly (total : Nat) (clusters : List String)
deriving DecidableEq, Repr

/-- The `total` field of either response shape. -/
def listClustersTotal : ListClustersResult → Nat
  | .detailed total _ => total
  | .namesOnly total _ => total

/-- Models `list_all_clusters`: build all views, apply the five filters in order,
sort by name, return details or names. -/
def list_all_clusters (env : HiveEnv) (filters : ListFilters)
    (include_details : Bool) : ListClustersResult :=
  let data := get_all_cluster_data env
  let all_clusters := build_all_clusters data.clusterclaims
    data.deployments_by_namespace data.ibm_clusters
  let f1 := applyFilter all_clusters filters.platform_filter (fun c => c.platform.getD "")
  let f2 := applyFilter f1 filters.name_filter (fun c => c.name)
  let f3 := applyFilter f2 filters.state_filter (fun c => c.state.getD "")
  let f4 := applyFilter f3 filters.region_filter (fun c => c.region.getD "")
  let f5 := applyFilter f4 filters.owner_filter (fun c => c.owner.getD "")
  let sorted := List.insertionSort byName f5
  if include_details then .detailed sorted.length sorted
  else .namesOnly sorted.length (sorted.map (fun c => c.name))

/-! ## Query layer: get_cluster_details (server.py lines 326-381) -/

/-- The structured response of `get_cluster_details`: a cluster info dict
(with the raw claim/deployment objects that were attached to it), or the
structured not-found dict. -/
inductive DetailsResult where
  | found (info : ClusterView) (claim : Option ClusterClaim)
      (deployment : Option ClusterDeployment)
  | notFound (cluster_name : String)
deriving DecidableEq, Repr

/-- First pass match: exact name, name with `-claim` suffix, or the search
name plus `-` as a name prefix (all on the lowercased claim name). -/
def claimNameMatches (search_name : String) (claim : ClusterClaim) : Bool :=
  let claim_name_lower := pyLower (claim.name.getD "")
  claim_name_lower == search_name
    || claim_name_lower == search_name ++ "-claim"
    || pyStartsWith claim_name_lower (search_name ++ "-")

/-- Second pass match: the claim's `spec.namespace`, exact or with the
search name plus `-` as a prefix (lowercased). -/
def namespaceMatches (search_name : String) (claim : ClusterClaim) : Bool :=
  let ns_lower := pyLower (claim.specNamespace.getD "")
  ns_lower == search_name || pyStartsWith ns_lower (search_name ++ "-")

/-- Third pass match: the IBM deployment's name, exact or with the search
name plus `-` as a prefix (lowercased). -/
def ibmNameMatches (search_name : String) (dep : ClusterDeployment) : Bool :=
  let ibm_name_lower := pyLower (dep.name.getD "")
  ibm_name_lower == search_name || pyStartsWith ibm_name_lower (search_name ++ "-")

/-- The first `for claim in clusterclaims` loop: on a name match with a
non-empty `spec.namespace`, return the info (with the first deployment of
that namespace when there is one); a match with an empty namespace just
falls through to the next claim. -/
def detailsClaimPass (fetchNs : String → List ClusterDeployment)
    (search_name : String) : List ClusterClaim → Option DetailsResult
  | [] => none
  | claim :: rest =>
    if claimNameMatches search_name claim then
      let cluster_namespace := claim.specNamespace.getD ""
      if cluster_namespace ≠ "" then
        match fetchNs cluster_namespace with
        | deployment :: _ =>
          some (.found (extract_cluster_info claim (some deployment))
            (some claim) (some deployment))
        | [] => some (.found (extract_cluster_info claim none) (some claim) none)
      else detailsClaimPass fetchNs search_name rest
    else detailsClaimPass fetchNs search_name rest

/-- The second `for claim in clusterclaims` loop: on a namespace match,
return only when the namespace listing is non-empty, otherwise fall
through to the next claim. -/
def detailsNamespacePass (fetchNs : String → List ClusterDeployment)
    (search_name : String) : List ClusterClaim → Option DetailsResult
  | [] => none
  | claim :: rest =>
    let cluster_namespace := claim.specNamespace.getD ""
    if namespaceMatches search_name claim then
      match fetchNs cluster_namespace with
      | deployment :: _ =>
        some (.found (extract_cluster_info claim (some deployment))
          (some claim) (some deployment))
      | [] => detailsNamespacePass fetchNs search_name rest
    else detailsNamespacePass fetchNs search_name rest

/-- The `for deployment in ibm_clusters` loop. -/
def detailsIbmPass (search_name : String) :
    List ClusterDeployment → Option DetailsResult
  | [] => none
  | deployment :: rest =>
    if ibmNameMatches search_name deployment then
      some (.found (extract_ibm_cluster_info deployment) none (some deployment))
    else detailsIbmPass search_name rest

/-- Models `get_cluster_details(cluster_name)`: normalise the search name, run the
three passes in order, structured not-found when none matches. -/
def get_cluster_details (env : HiveEnv) (cluster_name : String) : DetailsResult :=
  let search_name := pyStrip (pyLower cluster_name)
  let fetchNs := fun ns => get_clusterdeployments (env.depsResp ns)
  let clusterclaims := get_clusterclaims env.claimsResp
  match detailsClaimPass fetchNs search_name clusterclaims with
  | some r => r
  | none =>
    match detailsNamespacePass fetchNs search_name clusterclaims with
    | some r => r
    | none =>
      match detailsIbmPass search_name (get_clusterdeployments (env.depsResp "rhoai")) with
      | some r => r
      | none => .notFound cluster_name

/-- The `name` of a found result (`""` for not-found); used to state
observable facts about lookup outcomes. -/
def detailsResultName : DetailsResult → String
  | .found info _ _ => info.name
  | .notFound _ => ""

/-- Reference description of the lookup (follows the corrected spec
wording, for comparison with `get_cluster_details`): a three-phase
first-match search in claim/deployment list order, where the first phase
uses the combined name predicate restricted to claims with a non-empty
`spec.namespace`, the second phase the namespace predicate restricted to
claims whose namespace listing is non-empty, and the third phase the IBM
name predicate; structured not-found otherwise. -/
def detailsSearchSpec (env : HiveEnv) (cluster_name : String) : DetailsResult :=
  let search_name := pyStrip (pyLower cluster_name)
  let fetchNs := fun ns => get_clusterdeployments (env.depsResp ns)
  let clusterclaims := get_clusterclaims env.claimsResp
  match clusterclaims.find? (fun claim =>
      claimNameMatches search_name claim && claim.specNamespace.getD "" != "") with
  | some claim =>
    (match fetchNs (claim.specNamespace.getD "") with
     | deployment :: _ =>
       .found (extract_cluster_info claim (some deployment)) (some claim) (some deployment)
     | [] => .found (extract_cluster_info claim none) (some claim) none)
  | none =>
    match clusterclaims.find? (fun claim =>
        namespaceMatches search_name claim
          && !(fetchNs (claim.specNamespace.getD "")).isEmpty) with
    | some claim =>
      (match fetchNs (claim.specNamespace.getD "") with
       | deployment :: _ =>
         .found (extract_cluster_info claim (some deployment)) (some claim) (some deployment)
       | [] => .notFound cluster_name)
    | none =>
      match (get_clusterdeployments (env.depsResp "rhoai")).find?
          (fun dep => ibmNameMatches search_name dep) with
      | some deployment =>
        .found (extract_ibm_cluster_info deployment) none (some deployment)
      | none => .notFound cluster_name

/-! ## Query layer: counts (server.py lines 384-433 and 436-484) -/

/-- Models `platform_stats[platform][state] += 1` after the two
`if ... not in ...` inserts, on the inner state-count dict. -/
def bumpState (states : List (String × Nat)) (state : String) : List (String × Nat) :=
  match states with
  | [] => [(state, 1)]
  | (s, n) :: rest =>
    if s = state then (s, n + 1) :: rest else (s, n) :: bumpState rest state

/-- One iteration of the `get_cluster_count_by_platform` tally on the
nested dict (modelled as an insertion-ordered association list). -/
def addPlatformState (stats : List (String × List (String × Nat)))
    (platform state : String) : List (String × List (String × Nat)) :=
  match stats with
  | [] => [(platform, [(state, 1)])]
  | (p, states) :: rest =>
    if p = platform then (p, bumpState states state) :: rest
    else (p, states) :: addPlatformState rest platform state

/-- Models `total_clusters = sum(sum(states.values()) for states in platform_stats.values())`. -/
def platformStatsTotal (stats : List (String × List (String × Nat))) : Nat :=
  (stats.map (fun p => (p.2.map (fun s => s.2)).sum)).sum

/-- Models `get_cluster_count_by_platform`: tally `(platform, state)` over the
claims that have a namespace and a deployment, then over the IBM
deployments; return the total and the nested stats. -/
def get_cluster_count_by_platform (env : HiveEnv) :
    Nat × List (String × List (String × Nat)) :=
  let data := get_all_cluster_data env
  let claimStats := data.clusterclaims.foldl
    (fun stats claim =>
      let cluster_namespace := claim.specNamespace.getD ""
      if cluster_namespace ≠ "" then
        match data.deployments_by_namespace cluster_namespace with
        | some deployment =>
          let info := extract_cluster_info claim (some deployment)
          addPlatformState stats (info.platform.getD "unknown") (info.state.getD "Unknown")
        | none => stats
      else stats)
    []
  let stats := data.ibm_clusters.foldl
    (fun stats deployment =>
      let info := extract_ibm_cluster_info deployment
      addPlatformState stats (info.platform.getD "unknown") (info.state.getD "Unknown"))
    claimStats
  (platformStatsTotal stats, stats)

/-- Models `state_stats[state].append(name)` after the `if state not in` insert. -/
def addStateName (stats : List (String × List String)) (state cluster_name : String) :
    List (String × List String) :=
  match stats with
  | [] => [(state, [cluster_name])]
  | (s, names) :: rest =>
    if s = state then (s, names ++ [cluster_name]) :: rest
    else (s, names) :: addStateName rest state cluster_name

/-- Models `total_clusters = sum(len(clusters) for clusters in state_stats.values())`. -/
def stateStatsTotal (stats : List (String × List String)) : Nat :=
  (stats.map (fun s => s.2.length)).sum

/-- Models `get_cluster_count_by_state`: bucket names by resolved state over the
claims that have a namespace and a deployment, then over the IBM
deployments; sort each bucket; return the total and the buckets. -/
def get_cluster_count_by_state (env : HiveEnv) :
    Nat × List (String × List String) :=
  let data := get_all_cluster_data env
  let claimStats := data.clusterclaims.foldl
    (fun stats claim =>
      let cluster_namespace := claim.specNamespace.getD ""
      if cluster_namespace ≠ "" then
        match data.deployments_by_namespace cluster_namespace with
        | some deployment =>
          let info := extract_cluster_info claim (some deployment)
          addStateName stats (info.state.getD "Unknown") info.name
        | none => stats
      else stats)
    []
  let stats := data.ibm_clusters.foldl
    (fun stats deployment =>
      let info := extract_ibm_cluster_info deployment
      addStateName stats (info.state.getD "Unknown") info.name)
    claimStats
  let sortedStats := stats.map
    (fun s => (s.1, List.insertionSort (fun a b : String => a ≤ b) s.2))
  (stateStatsTotal sortedStats, sortedStats)

/-! ## Concrete fixtures used by counterexamples and witnesses -/

/-- The condition `{type: Ready, status: True}` from the spec's example. -/
def condReadyTrue : Condition := ⟨some "Ready", some "True", none⟩

/-- The condition `{type: Hibernating, status: True}` from the spec's example. -/
def condHibernatingTrue : Condition := ⟨some "Hibernating", some "True", none⟩

/-- A claim whose `spec.namespace` is `"ns1"`. -/
def claimNs1 : ClusterClaim := ⟨some "c1", some "alice", some "pool1", some "ns1", []⟩

/-- A second claim referencing the same namespace `"ns1"`. -/
def claimNs1b : ClusterClaim := ⟨some "c2", some "bob", some "pool1", some "ns1", []⟩

/-- A deployment living in namespace `"ns1"`. -/
def depNs1 : ClusterDeployment :=
  ⟨some "d1", some "ns1", some "uid1", some "aws", some "us-east-1", some "4.16",
   some "Running", [], [], some "https://api.cl1.ex.io:6443", some "infra1"⟩

/-- Store behaviour with two claims on one namespace, an empty cluster-wide
listing, and every namespaced listing empty. -/
def envRepeatedNs : HiveEnv :=
  { claimsResp := .ok (some [claimNs1, claimNs1b])
    allDepsResp := .ok (some [])
    depsResp := fun _ => .ok (some []) }

/-- Store behaviour with two claims on one namespace, an empty cluster-wide
listing, and every namespaced listing returning one deployment. -/
def envAlwaysDeps : HiveEnv :=
  { claimsResp := .ok (some [claimNs1, claimNs1b])
    allDepsResp := .ok (some [])
    depsResp := fun _ => .ok (some [depNs1]) }

/-- A claim named `"foo-bar"`. -/
def claimFooBar : ClusterClaim := ⟨some "foo-bar", some "alice", some "p", some "nsA", []⟩

/-- A claim named exactly `"foo"`. -/
def claimFoo : ClusterClaim := ⟨some "foo", some "bob", some "p", some "nsB", []⟩

/-- Store behaviour where the claim list holds `"foo-bar"` before `"foo"`
and every deployment listing is empty. -/
def envFoo : HiveEnv :=
  { claimsResp := .ok (some [claimFooBar, claimFoo])
    allDepsResp := .ok (some [])
    depsResp := fun _ => .ok (some []) }

/-- Store behaviour with one claim whose namespace has no deployment. -/
def envPendingClaim : HiveEnv :=
  { claimsResp := .ok (some [claimNs1])
    allDepsResp := .ok (some [])
    depsResp := fun _ => .ok (some []) }

/-- Whether the two-character pattern `[c0, c1]` occurs (contiguously)
somewhere in a character list: the parse-failure condition of the console
derivation is the absence of `"//"`. -/
def hasPair (c0 c1 : Char) : List Char → Bool
  | a :: b :: rest => (a = c0 && b = c1) || hasPair c0 c1 (b :: rest)
  | _ => false

/-! ## Helper lemmas: Python split/join -/

/-- A single-character split never produces the empty chunk list. -/
theorem pySplit1_ne_nil (c : Char) (xs : List Char) : pySplit1 c xs ≠ [] := by
  induction xs with
  | nil => simp [pySplit1]
  | cons a t ih =>
    by_cases hac : a = c
    · simp [pySplit1, hac]
    · obtain ⟨p, ps, hp⟩ := List.exists_cons_of_ne_nil ih
      simp [pySplit1, hac, hp]

/-- Splitting on a character that does not occur returns the whole list. -/
theorem pySplit1_of_not_mem (c : Char) (xs : List Char) (h : c ∉ xs) :
    pySplit1 c xs = [xs] := by
  induction xs with
  | nil => rfl
  | cons a t ih =>
    have hac : a ≠ c := fun hh => h (hh ▸ List.mem_cons_self a t)
    have ht := ih (fun hh => h (List.mem_cons_of_mem a hh))
    simp [pySplit1, hac, ht]

/-- Splitting at the first occurrence of the separator character: the part
before it (free of the separator) becomes the first chunk. -/
theorem pySplit1_append (c : Char) (xs ys : List Char) (h : c ∉ xs) :
    pySplit1 c (xs ++ c :: ys) = xs :: pySplit1 c ys := by
  induction xs with
  | nil => simp [pySplit1]
  | cons a t ih =>
    have hac : a ≠ c := fun hh => h (hh ▸ List.mem_cons_self a t)
    have ht := ih (fun hh => h (List.mem_cons_of_mem a hh))
    simp [pySplit1, hac, ht]

/-- Python `sep.join(s.split(sep))` is the identity (one-character
separator). -/
theorem joinSep_pySplit1 (c : Char) (xs : List Char) :
    joinSep c (pySplit1 c xs) = xs := by
  induction xs with
  | nil => rfl
  | cons a t ih =>
    obtain ⟨p, ps, hp⟩ := List.exists_cons_of_ne_nil (pySplit1_ne_nil c t)
    by_cases hac : a = c
    · subst hac
      rw [hp] at ih
      simp [pySplit1, hp, joinSep, ih]
    · rw [hp] at ih
      cases ps with
      | nil => simpa [pySplit1, hac, hp, joinSep] using ih
      | cons q qs => simpa [pySplit1, hac, hp, joinSep] using congrArg (a :: ·) ih

/-- A two-character split never produces the empty chunk list. -/
theorem pySplit2_ne_nil (c0 c1 : Char) (xs : List Char) : pySplit2 c0 c1 xs ≠ [] := by
  induction xs with
  | nil => simp [pySplit2]
  | cons a t ih =>
    cases t with
    | nil => simp [pySplit2]
    | cons b u =>
      by_cases hab : a = c0 ∧ b = c1
      · simp [pySplit2, hab]
      · obtain ⟨p, ps, hp⟩ := List.exists_cons_of_ne_nil ih
        simp [pySplit2, hab, hp]

/-- If the two-character pattern does not occur, the split returns the
whole list. -/
theorem pySplit2_of_not_hasPair (c0 c1 : Char) (xs : List Char)
    (h : hasPair c0 c1 xs = false) : pySplit2 c0 c1 xs = [xs] := by
  induction xs with
  | nil => rfl
  | cons a t ih =>
    cases t with
    | nil => rfl
    | cons b u =>
      simp only [hasPair, Bool.or_eq_false_iff, Bool.and_eq_false_iff] at h
      have hab : ¬(a = c0 ∧ b = c1) := by
        rcases h.1 with h1 | h1 <;> simp_all
      have ht := ih (by simpa using h.2)
      simp [pySplit2, hab, ht]

/-- If the pattern occurs nowhere, in particular its first character does
not occur, `hasPair` is `false`. -/
theorem hasPair_eq_false_of_not_mem (c0 c1 : Char) (xs : List Char) (h : c0 ∉ xs) :
    hasPair c0 c1 xs = false := by
  induction xs with
  | nil => rfl
  | cons a t ih =>
    cases t with
    | nil => rfl
    | cons b u =>
      have ha : a ≠ c0 := fun hh => h (hh ▸ List.mem_cons_self a (b :: u))
      have ht := ih (fun hh => h (List.mem_cons_of_mem a hh))
      simp [hasPair, ha, ht]

/-- Splitting at the first occurrence of the two-character separator, when
its first character does not occur in the part before it. -/
theorem pySplit2_append (c0 c1 : Char) (xs ys : List Char) (h : c0 ∉ xs) :
    pySplit2 c0 c1 (xs ++ c0 :: c1 :: ys) = xs :: pySplit2 c0 c1 ys := by
  induction xs with
  | nil => simp [pySplit2]
  | cons a t ih =>
    have hac : a ≠ c0 := fun hh => h (hh ▸ List.mem_cons_self a t)
    have ht := ih (fun hh => h (List.mem_cons_of_mem a hh))
    cases t with
    | nil =>
      simp only [List.nil_append] at ht
      simp [pySplit2, hac, ht]
    | cons b u =>
      simp only [List.cons_append] at ht ⊢
      simp [pySplit2, hac, ht]

/-! ## Helper lemmas: state resolution -/

/-- The helper `condState` only ever produces the four recognised state strings. -/
theorem condState_values (c : Condition) (s : String) (h : condState c = some s) :
    s = "Hibernating" ∨ s = "Running" ∨ s = "ProvisionStopped" ∨ s = "Resuming" := by
  unfold condState at h
  split_ifs at h <;> simp_all

/-- Conditions that match no recognised pair are skipped by the scan. -/
theorem scanConditions_append (pre rest : List Condition)
    (hpre : ∀ x ∈ pre, condState x = none) :
    scanConditions (pre ++ rest) = scanConditions rest := by
  induction pre with
  | nil => rfl
  | cons a t ih =>
    have ha : condState a = none := hpre a (List.mem_cons_self a t)
    simp only [List.cons_append, scanConditions, ha]
    exact ih (fun x hx => hpre x (List.mem_cons_of_mem a hx))

/-- The scan returns `"Unknown"` or one of the four recognised states. -/
theorem scanConditions_values (conditions : List Condition) :
    scanConditions conditions = "Unknown"
    ∨ scanConditions conditions
        ∈ (["Hibernating", "Running", "ProvisionStopped", "Resuming"] : List String) := by
  induction conditions with
  | nil => left; rfl
  | cons c rest ih =>
    cases hc : condState c with
    | none => simpa only [scanConditions, hc] using ih
    | some s =>
      right
      simp only [scanConditions, hc]
      rcases condState_values c s hc with h | h | h | h <;> simp [h]

/-- The resolved state is one of the four recognised states or the
power-state fallback. -/
theorem resolveState_values (conditions : List Condition) (power_state : String) :
    resolveState conditions power_state
      ∈ (["Hibernating", "Running", "ProvisionStopped", "Resuming"] : List String)
    ∨ resolveState conditions power_state = power_state := by
  unfold resolveState
  rcases scanConditions_values conditions with h | h
  · right
    simp [h]
  · left
    have hne : scanConditions conditions ≠ "Unknown" := by
      simp only [List.mem_cons, List.not_mem_nil, or_false] at h
      rcases h with h | h | h | h <;> simp [h]
    simpa [hne] using h

/-! ## Claim theorems: C1, C2 -/

/-- Claim C1: state resolution scans the deployment's conditions list in
its given order and the first condition whose `(type, status)` pair is one
of `(Hibernating, True)`, `(Ready, True)`, `(ProvisionStopped, True)`,
`(Resuming, True)` determines the state (`Ready` maps to `"Running"`);
for `[{Ready, True}, {Hibernating, True}]` the resolved state is
`"Running"`, and for `[{Hibernating, True}, {Ready, True}]` it is
`"Hibernating"` — list position, not type priority, decides. -/
theorem state_resolution_scan_order
    (pre post : List Condition) (c : Condition) (power_state s : String)
    (hpre : ∀ x ∈ pre, condState x = none) (hc : condState c = some s) :
    resolveState (pre ++ c :: post) power_state = s
    ∧ resolveState [condReadyTrue, condHibernatingTrue] power_state = "Running"
    ∧ resolveState [condHibernatingTrue, condReadyTrue] power_state = "Hibernating" := by
  refine ⟨?_, ?_, ?_⟩
  · have hscan : scanConditions (pre ++ c :: post) = s := by
      rw [scanConditions_append pre (c :: post) hpre]
      simp [scanConditions, hc]
    have hne : s ≠ "Unknown" := by
      rcases condState_values c s hc with h | h | h | h <;> simp [h]
    unfold resolveState
    simp [hscan, hne]
  · have hscan : scanConditions [condReadyTrue, condHibernatingTrue] = "Running" := by decide
    unfold resolveState
    simp [hscan]
  · have hscan : scanConditions [condHibernatingTrue, condReadyTrue] = "Hibernating" := by decide
    unfold resolveState
    simp [hscan]

/-- Witness for C1 at concrete inputs: `{Hibernating, True}` listed first
wins over `{Ready, True}` listed second, and the two example lists resolve
to `"Hibernating"` / `"Running"` as stated. -/
theorem state_resolution_scan_order_witness :
    resolveState ([] ++ condHibernatingTrue :: [condReadyTrue]) "SomePower" = "Hibernating"
    ∧ resolveState [condReadyTrue, condHibernatingTrue] "SomePower" = "Running"
    ∧ resolveState [condHibernatingTrue, condReadyTrue] "SomePower" = "Hibernating" :=
  state_resolution_scan_order [] [condReadyTrue] condHibernatingTrue "SomePower"
    "Hibernating" (fun x hx => absurd hx (List.not_mem_nil x)) (by decide)

/-- Claim C2: for every ClusterView built from a deployment (by either
builder), the resolved `state` field is one of `"Hibernating"`,
`"Running"`, `"ProvisionStopped"`, `"Resuming"`, or — when no condition
matched a recognised pair — exactly the deployment's raw `powerState`
value as read by the code (`spec.get("powerState", "Unknown")`). -/
theorem cluster_view_state_values (claim : ClusterClaim) (dep : ClusterDeployment) :
    (∃ s, (extract_cluster_info claim (some dep)).state = some s
      ∧ (s ∈ (["Hibernating", "Running", "ProvisionStopped", "Resuming"] : List String)
        ∨ s = dep.powerState.getD "Unknown"))
    ∧ (∃ s, (extract_ibm_cluster_info dep).state = some s
      ∧ (s ∈ (["Hibernating", "Running", "ProvisionStopped", "Resuming"] : List String)
        ∨ s = dep.powerState.getD "Unknown")) :=
  ⟨⟨_, rfl, resolveState_values dep.conditions (dep.powerState.getD "Unknown")⟩,
   ⟨_, rfl, resolveState_values dep.conditions (dep.powerState.getD "Unknown")⟩⟩

/-! ## Claim theorems: C3, C4 (console URL derivation) -/

/-- Counterexample to C3's parse-failure cases: an apiURL with no `:` at
all, and one whose host has a single DNS label, both still produce a
console URL (not the `"N/A"` sentinel). -/
theorem console_url_parse_failure_cx :
    deriveConsoleURL "ftp//api.foo.example.com"
      = "https://console-openshift-console.apps.foo.example.com"
    ∧ deriveConsoleURL "https://localhost:6443"
      = "https://console-openshift-console.apps."
    ∧ ("https://console-openshift-console.apps.foo.example.com" : String) ≠ "N/A"
    ∧ ("https://console-openshift-console.apps." : String) ≠ "N/A" :=
  ⟨by decide, by decide, by decide, by decide⟩

/-- Claim C3 as amended: for an apiURL of the shape
`scheme ++ "//api." ++ domain ++ ":" ++ port` (no `/` in the scheme, the
domain or the port, and no `:` in the domain), the console URL is the host
minus its first DNS label behind the fixed
`https://console-openshift-console.apps.` stem; and the derivation yields
the `"N/A"` sentinel exactly for the one failure the `except` can catch —
an apiURL that contains no `"//"` (the `[1]` IndexError).  A missing `:`
or a single-label host is not a parse failure: the former treats
everything after `"//"` as the host, the latter produces the stem with an
empty domain. -/
theorem console_url_derivation
    (scheme domain port : List Char)
    (hs : '/' ∉ scheme) (hd1 : '/' ∉ domain) (hd2 : ':' ∉ domain) (hp : '/' ∉ port) :
    deriveConsoleURL (String.mk
        (scheme ++ '/' :: '/' :: 'a' :: 'p' :: 'i' :: '.' :: (domain ++ ':' :: port)))
      = "https://console-openshift-console.apps." ++ String.mk domain
    ∧ (∀ u : List Char, hasPair '/' '/' u = false →
        deriveConsoleURL (String.mk u) = "N/A") := by
  constructor
  · set rest := 'a' :: 'p' :: 'i' :: '.' :: (domain ++ ':' :: port) with hrest
    have hlen : (scheme ++ '/' :: '/' :: rest).length
        = scheme.length + domain.length + port.length + 7 := by
      simp [hrest]
      omega
    have hne : String.mk (scheme ++ '/' :: '/' :: rest) ≠ "N/A" := by
      intro hcontra
      have hdata := congrArg String.data hcontra
      simp only [String.data] at hdata
      have h3 : ("N/A".data).length = 3 := by decide
      have := congrArg List.length hdata
      rw [hlen, h3] at this
      omega
    have hsplit : pySplit2 '/' '/' (scheme ++ '/' :: '/' :: rest)
        = scheme :: pySplit2 '/' '/' rest := pySplit2_append '/' '/' scheme rest hs
    have hnorest : '/' ∉ rest := by
      simp only [hrest, List.mem_cons, List.mem_append]
      push_neg
      refine ⟨by decide, by decide, by decide, by decide, fun h => hd1 h, by decide,
        fun h => hp h⟩
    have hrest1 : pySplit2 '/' '/' rest = [rest] :=
      pySplit2_of_not_hasPair '/' '/' rest (hasPair_eq_false_of_not_mem '/' '/' rest hnorest)
    have hhost : pySplit1 ':' rest
        = ('a' :: 'p' :: 'i' :: '.' :: domain) :: pySplit1 ':' port := by
      have : rest = ('a' :: 'p' :: 'i' :: '.' :: domain) ++ ':' :: port := by
        simp [hrest]
      rw [this]
      refine pySplit1_append ':' _ port ?_
      simp only [List.mem_cons]
      push_neg
      exact ⟨by decide, by decide, by decide, by decide, fun h => hd2 h⟩
    have hlabels : pySplit1 '.' ('a' :: 'p' :: 'i' :: '.' :: domain)
        = ['a', 'p', 'i'] :: pySplit1 '.' domain := by
      have : ('a' :: 'p' :: 'i' :: '.' :: domain)
          = ['a', 'p', 'i'] ++ '.' :: domain := by simp
      rw [this]
      exact pySplit1_append '.' ['a', 'p', 'i'] domain (by decide)
    unfold deriveConsoleURL
    rw [if_neg hne]
    simp only [String.data, hsplit, hrest1, List.drop_succ_cons, List.drop_zero,
      hhost, List.headD_cons, hlabels, joinSep_pySplit1]
  · intro u hu
    unfold deriveConsoleURL
    by_cases hna : String.mk u = "N/A"
    · rw [if_pos hna]
    · rw [if_neg hna]
      simp only [String.data, pySplit2_of_not_hasPair '/' '/' u hu, List.drop_succ_cons,
        List.drop_nil]

/-- Witness for C3 (amended) at concrete inputs: a well-formed apiURL and
the no-`"//"` failure case. -/
theorem console_url_derivation_witness :
    deriveConsoleURL (String.mk
        (['h', 't', 't', 'p', 's', ':'] ++ '/' :: '/' :: 'a' :: 'p' :: 'i' :: '.'
          :: (['c', 'l', '1', '.', 'e', 'x', '.', 'i', 'o'] ++ ':' :: ['6', '4', '4', '3'])))
      = "https://console-openshift-console.apps."
          ++ String.mk ['c', 'l', '1', '.', 'e', 'x', '.', 'i', 'o']
    ∧ (∀ u : List Char, hasPair '/' '/' u = false →
        deriveConsoleURL (String.mk u) = "N/A") :=
  console_url_derivation ['h', 't', 't', 'p', 's', ':']
    ['c', 'l', '1', '.', 'e', 'x', '.', 'i', 'o'] ['6', '4', '4', '3']
    (by decide) (by decide) (by decide) (by decide)

/-- Counterexample to C4: on `"https://api.foo.bar.example.com:6443"` the
code drops only the first DNS label, so the console URL keeps `foo` and is
not the spec's `"https://console-openshift-console.apps.bar.example.com"`. -/
theorem console_url_example_cx :
    deriveConsoleURL "https://api.foo.bar.example.com:6443"
      = "https://console-openshift-console.apps.foo.bar.example.com"
    ∧ ("https://console-openshift-console.apps.foo.bar.example.com" : String)
        ≠ "https://console-openshift-console.apps.bar.example.com" :=
  ⟨by decide, by decide⟩

/-- Claim C4 as amended: for apiURL
`"https://api.foo.bar.example.com:6443"` the console URL is
`"https://console-openshift-console.apps.foo.bar.example.com"` (only the
first label `api` is dropped), and for `"not-a-url"` it is `"N/A"`. -/
theorem console_url_example :
    deriveConsoleURL "https://api.foo.bar.example.com:6443"
      = "https://console-openshift-console.apps.foo.bar.example.com"
    ∧ deriveConsoleURL "not-a-url" = "N/A" :=
  ⟨by decide, by decide⟩

/-! ## Claim theorems: C5 (resource client soft-fail) -/

/-- Claim C5: every Resource Client read operation (list claims, list
deployments, list all deployments, get pool) returns an empty list / None
when the underlying remote access raises an error (an `ApiException`,
which includes permission-denied), and never propagates the exception to
its caller. -/
theorem resource_client_soft_fail (e : ApiException) :
    get_clusterclaims (.error e) = []
    ∧ get_clusterdeployments (.error e) = []
    ∧ get_all_clusterdeployments (.error e) = []
    ∧ get_clusterpool (.error e) = none :=
  ⟨rfl, rfl, rfl, rfl⟩

/-! ## Claim theorems: C6 (fallback call bound) -/

/-- Counterexample to C6: two claims sharing the target namespace `"ns1"`
whose listing returns empty cause two fallback calls, although there is
only one distinct target namespace — an unresolved namespace is re-queried
for every later claim that references it. -/
theorem fallback_call_bound_cx :
    (get_all_cluster_data envRepeatedNs).fallback_calls = ["ns1", "ns1"]
    ∧ distinctTargetNamespaces (get_all_cluster_data envRepeatedNs).clusterclaims = ["ns1"]
    ∧ ¬ (get_all_cluster_data envRepeatedNs).fallback_calls.length
          ≤ (distinctTargetNamespaces
              (get_all_cluster_data envRepeatedNs).clusterclaims).length :=
  ⟨by decide, by decide, by decide⟩

/-- Invariant of the fallback loop when every per-namespace listing is
non-empty: the call log is duplicate-free, every logged namespace is a
non-empty claim namespace unresolved at loop entry, and every namespace
unresolved at loop exit was neither resolved at entry nor logged. -/
theorem fallbackFetch_log (fetchNs : String → List ClusterDeployment)
    (hf : ∀ ns, fetchNs ns ≠ []) :
    ∀ (claims : List ClusterClaim) (m : String → Option ClusterDeployment),
      (fallbackFetch fetchNs claims m).2.Nodup
      ∧ (∀ ns ∈ (fallbackFetch fetchNs claims m).2,
          ns ≠ "" ∧ ns ∈ claims.map (fun c => c.specNamespace.getD "") ∧ m ns = none)
      ∧ (∀ ns, (fallbackFetch fetchNs claims m).1 ns = none →
          m ns = none ∧ ns ∉ (fallbackFetch fetchNs claims m).2) := by
  intro claims
  induction claims with
  | nil =>
    intro m
    refine ⟨List.nodup_nil, ?_, ?_⟩ <;> simp [fallbackFetch]
  | cons claim rest ih =>
    intro m
    by_cases hcond : claim.specNamespace.getD "" ≠ ""
        ∧ m (claim.specNamespace.getD "") = none
    · cases hfetch : fetchNs (claim.specNamespace.getD "") with
      | nil => exact absurd hfetch (hf _)
      | cons dep deps =>
        have heq : fallbackFetch fetchNs (claim :: rest) m
            = ((fallbackFetch fetchNs rest
                  (fun k => if k = claim.specNamespace.getD ""
                    then some dep else m k)).1,
               claim.specNamespace.getD ""
                 :: (fallbackFetch fetchNs rest
                      (fun k => if k = claim.specNamespace.getD ""
                        then some dep else m k)).2) := by
          simp only [fallbackFetch]
          rw [if_pos hcond, hfetch]
        obtain ⟨ihn, ihm, ihr⟩ := ih
          (fun k => if k = claim.specNamespace.getD "" then some dep else m k)
        rw [heq]
        refine ⟨?_, ?_, ?_⟩
        · refine List.Nodup.cons ?_ ihn
          intro hin
          have := (ihm _ hin).2.2
          simp at this
        · intro ns hns
          rcases List.mem_cons.mp hns with hh | hh
          · subst hh
            exact ⟨hcond.1, by simp, hcond.2⟩
          · obtain ⟨h1, h2, h3⟩ := ihm ns hh
            have hne : ns ≠ claim.specNamespace.getD "" := by
              intro hcontra
              rw [if_pos hcontra] at h3
              cases h3
            rw [if_neg hne] at h3
            exact ⟨h1, by simp [h2], h3⟩
        · intro ns hns
          obtain ⟨h1, h2⟩ := ihr ns hns
          have hne : ns ≠ claim.specNamespace.getD "" := by
            intro hcontra
            rw [if_pos hcontra] at h1
            cases h1
          rw [if_neg hne] at h1
          exact ⟨h1, by simp [hne, h2]⟩
    · have heq : fallbackFetch fetchNs (claim :: rest) m = fallbackFetch fetchNs rest m := by
        simp only [fallbackFetch]
        rw [if_neg hcond]
      obtain ⟨ihn, ihm, ihr⟩ := ih m
      rw [heq]
      refine ⟨ihn, ?_, ihr⟩
      intro ns hns
      obtain ⟨h1, h2, h3⟩ := ihm ns hns
      exact ⟨h1, by simp [h2], h3⟩

/-- A duplicate-free list whose members all belong to `l'` is no longer
than `l'.dedup`. -/
theorem nodup_length_le_dedup {l l' : List String} (hn : l.Nodup)
    (hs : ∀ x ∈ l, x ∈ l') : l.length ≤ l'.dedup.length := by
  have h1 : l.toFinset.card = l.length := List.toFinset_card_of_nodup hn
  have h2 : l.toFinset ⊆ l'.toFinset := by
    intro x hx
    rw [List.mem_toFinset] at hx ⊢
    exact hs x hx
  have h3 := Finset.card_le_card h2
  rw [h1, List.card_toFinset] at h3
  exact h3

/-- Claim C6 as amended: the fallback loop issues at most one
`listDeployments` call per distinct target namespace whenever every
per-namespace listing returns a non-empty result; a namespace whose
listing comes back empty is never marked resolved and is re-queried for
each later claim that references it, so without that hypothesis the call
count is bounded by the number of claims, not of distinct namespaces. -/
theorem fallback_calls_bounded (env : HiveEnv)
    (hf : ∀ ns, get_clusterdeployments (env.depsResp ns) ≠ []) :
    (get_all_cluster_data env).fallback_calls.length
      ≤ (distinctTargetNamespaces (get_all_cluster_data env).clusterclaims).length := by
  have hclaims : (get_all_cluster_data env).clusterclaims
      = get_clusterclaims env.claimsResp := by
    unfold get_all_cluster_data
    by_cases hempty : (get_all_clusterdeployments env.allDepsResp).isEmpty <;>
      simp [hempty]
  rw [hclaims]
  by_cases hempty : (get_all_clusterdeployments env.allDepsResp).isEmpty
  · have hcalls : (get_all_cluster_data env).fallback_calls
        = (fallbackFetch (fun ns => get_clusterdeployments (env.depsResp ns))
            (get_clusterclaims env.claimsResp) (fun _ => none)).2 := by
      unfold get_all_cluster_data
      simp [hempty]
    rw [hcalls]
    obtain ⟨hnodup, hmem, _⟩ :=
      fallbackFetch_log (fun ns => get_clusterdeployments (env.depsResp ns)) hf
        (get_clusterclaims env.claimsResp) (fun _ => none)
    unfold distinctTargetNamespaces
    apply nodup_length_le_dedup hnodup
    intro x hx
    obtain ⟨hne, hmap, _⟩ := hmem x hx
    rw [List.mem_filter]
    exact ⟨hmap, by simpa using hne⟩
  · have hcalls : (get_all_cluster_data env).fallback_calls = [] := by
      unfold get_all_cluster_data
      simp [hempty]
    rw [hcalls]
    exact Nat.zero_le _

/-- Witness for C6 (amended): with every namespaced listing non-empty, the
fallback call count stays within the distinct-namespace bound. -/
theorem fallback_calls_bounded_witness :
    (get_all_cluster_data envAlwaysDeps).fallback_calls.length
      ≤ (distinctTargetNamespaces
          (get_all_cluster_data envAlwaysDeps).clusterclaims).length :=
  fallback_calls_bounded envAlwaysDeps
    (fun ns => by simp [envAlwaysDeps, get_clusterdeployments])

/-! ## Claim theorems: C7 (claim with no deployment) -/

/-- Counterexample to C7: for a claim built with no deployment record the
deployment-derived keys are absent from the info dict (`none`), not set to
the `"unknown"`/`"N/A"` sentinels. -/
theorem claim_without_deployment_cx :
    (extract_cluster_info claimNs1 none).platform = none
    ∧ (extract_cluster_info claimNs1 none).platform ≠ some "unknown"
    ∧ (extract_cluster_info claimNs1 none).state = none
    ∧ (extract_cluster_info claimNs1 none).console_url ≠ some "N/A" :=
  ⟨rfl, by decide, rfl, by decide⟩

/-- Claim C7 as amended: for every claim built with no deployment record,
the resulting view carries none of the deployment-derived keys (platform,
region, version, state, powerState, apiURL, consoleURL, infraID,
clusterID are all absent rather than sentinel-valued), while `pending`
stays as derived from the claim's own status conditions. -/
theorem claim_without_deployment_fields (claim : ClusterClaim) :
    (extract_cluster_info claim none).platform = none
    ∧ (extract_cluster_info claim none).region = none
    ∧ (extract_cluster_info claim none).version = none
    ∧ (extract_cluster_info claim none).state = none
    ∧ (extract_cluster_info claim none).power_state = none
    ∧ (extract_cluster_info claim none).api_url = none
    ∧ (extract_cluster_info claim none).console_url = none
    ∧ (extract_cluster_info claim none).infra_id = none
    ∧ (extract_cluster_info claim none).cluster_id = none
    ∧ (extract_cluster_info claim none).pending
        = (match claim.conditions with
           | [] => "Unknown"
           | c :: _ => c.reason.getD "Unknown") :=
  ⟨rfl, rfl, rfl, rfl, rfl, rfl, rfl, rfl, rfl, rfl⟩

/-! ## Claim theorems: C8 (unfiltered listing) -/

/-- A filterMap that keeps exactly the elements satisfying `p` has the
same length as the corresponding filter. -/
theorem filterMap_if_length {α β : Type} (p : α → Bool) (f : α → β) (l : List α) :
    (l.filterMap (fun a => if p a = true then some (f a) else none)).length
      = (l.filter p).length := by
  induction l with
  | nil => rfl
  | cons a t ih =>
    by_cases h : p a = true <;> simp [List.filterMap_cons, List.filter_cons, h, ih]

/-- The build step yields one view per claim with a non-empty
`spec.namespace` plus one per IBM deployment. -/
theorem build_all_clusters_length (claims : List ClusterClaim)
    (m : String → Option ClusterDeployment) (ibm : List ClusterDeployment) :
    (build_all_clusters claims m ibm).length
      = (claims.filter (fun c => c.specNamespace.getD "" != "")).length + ibm.length := by
  unfold build_all_clusters
  rw [List.length_append, List.length_map]
  congr 1
  have hfun : (fun claim : ClusterClaim =>
      let cluster_namespace := claim.specNamespace.getD ""
      if cluster_namespace ≠ "" then
        some (extract_cluster_info claim (m cluster_namespace))
      else none)
      = (fun claim : ClusterClaim =>
          if (claim.specNamespace.getD "" != "") = true
          then some (extract_cluster_info claim (m (claim.specNamespace.getD "")))
          else none) := by
    funext claim
    by_cases h : claim.specNamespace.getD "" = "" <;> simp [h]
  rw [hfun, filterMap_if_length]

/-- Claim C8: `list_all_clusters` called with no filters returns one
ClusterView per claim whose target namespace is non-empty plus one per
deployment fetched from the claims namespace (IBM case) — the returned
total equals that sum — and the returned clusters are sorted by name
ascending (a sorted permutation of the built views). -/
theorem list_clusters_unfiltered_total (env : HiveEnv) :
    ∃ clusters : List ClusterView,
      list_all_clusters env noFilters true
        = .detailed (((get_all_cluster_data env).clusterclaims.filter
              (fun c => c.specNamespace.getD "" != "")).length
            + (get_all_cluster_data env).ibm_clusters.length) clusters
      ∧ List.Sorted byName clusters
      ∧ clusters.Perm (build_all_clusters (get_all_cluster_data env).clusterclaims
          (get_all_cluster_data env).deployments_by_namespace
          (get_all_cluster_data env).ibm_clusters) := by
  refine ⟨List.insertionSort byName (build_all_clusters
      (get_all_cluster_data env).clusterclaims
      (get_all_cluster_data env).deployments_by_namespace
      (get_all_cluster_data env).ibm_clusters), ?_, ?_, ?_⟩
  · have hlen : (List.insertionSort byName (build_all_clusters
        (get_all_cluster_data env).clusterclaims
        (get_all_cluster_data env).deployments_by_namespace
        (get_all_cluster_data env).ibm_clusters)).length
        = ((get_all_cluster_data env).clusterclaims.filter
            (fun c => c.specNamespace.getD "" != "")).length
          + (get_all_cluster_data env).ibm_clusters.length := by
      rw [(List.perm_insertionSort byName _).length_eq]
      exact build_all_clusters_length _ _ _
    rw [← hlen]
    rfl
  · exact List.sorted_insertionSort byName _
  · exact List.perm_insertionSort byName _

/-! ## Claim theorems: C9 (get_cluster_details lookup) -/

/-- The first loop is a first-match search over the claims with the
combined name predicate, restricted to claims with a non-empty
`spec.namespace`. -/
theorem detailsClaimPass_eq_find (fetchNs : String → List ClusterDeployment)
    (search_name : String) (claims : List ClusterClaim) :
    detailsClaimPass fetchNs search_name claims
      = (claims.find? (fun claim =>
            claimNameMatches search_name claim
              && claim.specNamespace.getD "" != "")).map
          (fun claim =>
            match fetchNs (claim.specNamespace.getD "") with
            | deployment :: _ =>
              .found (extract_cluster_info claim (some deployment))
                (some claim) (some deployment)
            | [] => .found (extract_cluster_info claim none) (some claim) none) := by
  induction claims with
  | nil => rfl
  | cons claim rest ih =>
    by_cases hm : claimNameMatches search_name claim
    · by_cases hns : claim.specNamespace.getD "" = ""
      · rw [List.find?_cons_of_neg _ (by simp [hm, hns])]
        simpa [detailsClaimPass, hm, hns] using ih
      · rw [List.find?_cons_of_pos _ (by simp [hm, hns])]
        simp only [detailsClaimPass, hm, hns, if_true, Option.map_some']
        rw [if_pos hns]
        cases fetchNs (claim.specNamespace.getD "") <;> rfl
    · rw [List.find?_cons_of_neg _ (by simp [hm])]
      simpa [detailsClaimPass, hm] using ih

/-- The second loop is a first-match search over the claims with the
namespace predicate, restricted to claims whose namespace listing is
non-empty. -/
theorem detailsNamespacePass_eq_find (fetchNs : String → List ClusterDeployment)
    (search_name : String) (claims : List ClusterClaim) :
    detailsNamespacePass fetchNs search_name claims
      = (claims.find? (fun claim =>
            namespaceMatches search_name claim
              && !(fetchNs (claim.specNamespace.getD "")).isEmpty)).map
          (fun claim =>
            match fetchNs (claim.specNamespace.getD "") with
            | deployment :: _ =>
              .found (extract_cluster_info claim (some deployment))
                (some claim) (some deployment)
            | [] => .notFound "") := by
  induction claims with
  | nil => rfl
  | cons claim rest ih =>
    by_cases hm : namespaceMatches search_name claim
    · cases hfetch : fetchNs (claim.specNamespace.getD "") with
      | nil =>
        rw [List.find?_cons_of_neg _ (by simp [hm, hfetch])]
        simpa [detailsNamespacePass, hm, hfetch] using ih
      | cons deployment deps =>
        rw [List.find?_cons_of_pos _ (by simp [hm, hfetch])]
        simp [detailsNamespacePass, hm, hfetch]
    · rw [List.find?_cons_of_neg _ (by simp [hm])]
      simpa [detailsNamespacePass, hm] using ih

/-- The IBM loop is a first-match search over the deployments with the IBM
name predicate. -/
theorem detailsIbmPass_eq_find (search_name : String)
    (deps : List ClusterDeployment) :
    detailsIbmPass search_name deps
      = (deps.find? (fun dep => ibmNameMatches search_name dep)).map
          (fun deployment =>
            .found (extract_ibm_cluster_info deployment) none (some deployment)) := by
  induction deps with
  | nil => rfl
  | cons deployment rest ih =>
    by_cases hm : ibmNameMatches search_name deployment
    · rw [List.find?_cons_of_pos _ (by simp [hm])]
      simp [detailsIbmPass, hm]
    · rw [List.find?_cons_of_neg _ (by simp [hm])]
      simpa [detailsIbmPass, hm] using ih

/-- Counterexample to C9: with the claim list `["foo-bar", "foo"]` (both
with namespaces, all listings empty), the query `"foo"` returns the
`"foo-bar"` claim — the dash-prefix rule (c) on an earlier claim wins over
the exact-match rule (a) on a later claim, so rules (a)-(c) are not tried
as separate priority tiers. -/
theorem details_priority_cx :
    detailsResultName (get_cluster_details envFoo "foo") = "foo-bar"
    ∧ ("foo-bar" : String) ≠ "foo" :=
  ⟨by decide, by decide⟩

/-- Claim C9 as amended: `get_cluster_details` is the three-phase
case-insensitive first-match search `detailsSearchSpec`: phase one scans
the claims in list order with the combined predicate (exact name, name
equal to the query plus `-claim`, or name having the query plus `-` as a
prefix — one disjunction per claim, not three priority tiers), skipping
matches whose target namespace is empty; phase two scans the claims by
namespace (exact or prefix), skipping matches whose namespace listing is
empty; phase three scans the IBM deployments by name (exact or prefix);
a query matching nothing yields the structured not-found result, and no
exception propagates. -/
theorem details_lookup_phases (env : HiveEnv) (cluster_name : String) :
    get_cluster_details env cluster_name = detailsSearchSpec env cluster_name := by
  simp only [get_cluster_details, detailsSearchSpec]
  rw [detailsClaimPass_eq_find, detailsNamespacePass_eq_find, detailsIbmPass_eq_find]
  cases h1 : (get_clusterclaims env.claimsResp).find? (fun claim =>
      claimNameMatches (pyStrip (pyLower cluster_name)) claim
        && claim.specNamespace.getD "" != "") with
  | some claim => simp
  | none =>
    simp only [Option.map_none']
    cases h2 : (get_clusterclaims env.claimsResp).find? (fun claim =>
        namespaceMatches (pyStrip (pyLower cluster_name)) claim
          && !(get_clusterdeployments
                (env.depsResp (claim.specNamespace.getD ""))).isEmpty) with
    | some claim =>
      have hp := List.find?_some h2
      simp only [Bool.and_eq_true, Bool.not_eq_true'] at hp
      cases hfetch : get_clusterdeployments (env.depsResp (claim.specNamespace.getD "")) with
      | nil =>
        rw [hfetch] at hp
        simp at hp
      | cons deployment deps => simp [hfetch]
    | none =>
      cases h3 : (get_clusterdeployments (env.depsResp "rhoai")).find?
          (fun dep => ibmNameMatches (pyStrip (pyLower cluster_name)) dep) with
      | some deployment => simp
      | none => simp

/-! ## Claim theorems: C10 (counts skip claims without deployment) -/

/-- Bumping one state count raises the inner sum by one. -/
theorem bumpState_total (states : List (String × Nat)) (state : String) :
    ((bumpState states state).map (fun s => s.2)).sum
      = (states.map (fun s => s.2)).sum + 1 := by
  induction states with
  | nil => simp [bumpState]
  | cons p rest ih =>
    obtain ⟨s, n⟩ := p
    by_cases h : s = state <;> simp [bumpState, h, ih] <;> omega

/-- One platform/state tally step raises the grand total by one. -/
theorem addPlatformState_total (stats : List (String × List (String × Nat)))
    (platform state : String) :
    platformStatsTotal (addPlatformState stats platform state)
      = platformStatsTotal stats + 1 := by
  induction stats with
  | nil => simp [addPlatformState, platformStatsTotal]
  | cons p rest ih =>
    obtain ⟨q, states⟩ := p
    by_cases h : q = platform
    · simp [addPlatformState, h, platformStatsTotal, bumpState_total]
      omega
    · simp only [addPlatformState, h, if_false, platformStatsTotal, List.map_cons,
        List.sum_cons] at ih ⊢
      omega

/-- One state/name bucket step raises the grand total by one. -/
theorem addStateName_total (stats : List (String × List String))
    (state cluster_name : String) :
    stateStatsTotal (addStateName stats state cluster_name)
      = stateStatsTotal stats + 1 := by
  induction stats with
  | nil => simp [addStateName, stateStatsTotal]
  | cons p rest ih =>
    obtain ⟨s, names⟩ := p
    by_cases h : s = state
    · simp [addStateName, h, stateStatsTotal]
      omega
    · simp only [addStateName, h, if_false, stateStatsTotal, List.map_cons,
        List.sum_cons] at ih ⊢
      omega

/-- The claim loop of the platform count tallies exactly the claims with a
non-empty namespace and a deployment. -/
theorem count_platform_foldl (m : String → Option ClusterDeployment)
    (claims : List ClusterClaim) (stats0 : List (String × List (String × Nat))) :
    platformStatsTotal (claims.foldl
      (fun stats claim =>
        if claim.specNamespace.getD "" ≠ "" then
          match m (claim.specNamespace.getD "") with
          | some deployment =>
            addPlatformState stats
              ((extract_cluster_info claim (some deployment)).platform.getD "unknown")
              ((extract_cluster_info claim (some deployment)).state.getD "Unknown")
          | none => stats
        else stats) stats0)
      = platformStatsTotal stats0
        + (claims.filter (fun c => c.specNamespace.getD "" != ""
            && (m (c.specNamespace.getD "")).isSome)).length := by
  induction claims generalizing stats0 with
  | nil => simp
  | cons claim rest ih =>
    simp only [List.foldl_cons, List.filter_cons]
    by_cases hns : claim.specNamespace.getD "" = ""
    · rw [if_neg (fun hcontra => hcontra hns), ih]
      simp [hns]
    · rw [if_pos hns]
      cases hm : m (claim.specNamespace.getD "") with
      | none =>
        simp only [hm]
        rw [ih]
        simp [hns, hm]
      | some dep =>
        simp only [hm]
        rw [ih, addPlatformState_total]
        simp [hns, hm]
        omega

/-- The IBM loop of the platform count tallies every IBM deployment. -/
theorem count_platform_ibm_foldl (deps : List ClusterDeployment)
    (stats0 : List (String × List (String × Nat))) :
    platformStatsTotal (deps.foldl
      (fun stats deployment =>
        addPlatformState stats
          ((extract_ibm_cluster_info deployment).platform.getD "unknown")
          ((extract_ibm_cluster_info deployment).state.getD "Unknown")) stats0)
      = platformStatsTotal stats0 + deps.length := by
  induction deps generalizing stats0 with
  | nil => simp
  | cons dep rest ih =>
    simp only [List.foldl_cons]
    rw [ih, addPlatformState_total]
    simp
    omega

/-- The claim loop of the state count tallies exactly the claims with a
non-empty namespace and a deployment. -/
theorem count_state_foldl (m : String → Option ClusterDeployment)
    (claims : List ClusterClaim) (stats0 : List (String × List String)) :
    stateStatsTotal (claims.foldl
      (fun stats claim =>
        if claim.specNamespace.getD "" ≠ "" then
          match m (claim.specNamespace.getD "") with
          | some deployment =>
            addStateName stats
              ((extract_cluster_info claim (some deployment)).state.getD "Unknown")
              (extract_cluster_info claim (some deployment)).name
          | none => stats
        else stats) stats0)
      = stateStatsTotal stats0
        + (claims.filter (fun c => c.specNamespace.getD "" != ""
            && (m (c.specNamespace.getD "")).isSome)).length := by
  induction claims generalizing stats0 with
  | nil => simp
  | cons claim rest ih =>
    simp only [List.foldl_cons, List.filter_cons]
    by_cases hns : claim.specNamespace.getD "" = ""
    · rw [if_neg (fun hcontra => hcontra hns), ih]
      simp [hns]
    · rw [if_pos hns]
      cases hm : m (claim.specNamespace.getD "") with
      | none =>
        simp only [hm]
        rw [ih]
        simp [hns, hm]
      | some dep =>
        simp only [hm]
        rw [ih, addStateName_total]
        simp [hns, hm]
        omega

/-- The IBM loop of the state count tallies every IBM deployment. -/
theorem count_state_ibm_foldl (deps : List ClusterDeployment)
    (stats0 : List (String × List String)) :
    stateStatsTotal (deps.foldl
      (fun stats deployment =>
        addStateName stats
          ((extract_ibm_cluster_info deployment).state.getD "Unknown")
          (extract_ibm_cluster_info deployment).name) stats0)
      = stateStatsTotal stats0 + deps.length := by
  induction deps generalizing stats0 with
  | nil => simp
  | cons dep rest ih =>
    simp only [List.foldl_cons]
    rw [ih, addStateName_total]
    simp
    omega

/-- Sorting each bucket does not change the grand total. -/
theorem stateStatsTotal_sort (stats : List (String × List String)) :
    stateStatsTotal (stats.map
      (fun s => (s.1, List.insertionSort (fun a b : String => a ≤ b) s.2)))
      = stateStatsTotal stats := by
  unfold stateStatsTotal
  induction stats with
  | nil => rfl
  | cons p rest ih =>
    simp only [List.map_cons, List.sum_cons]
    rw [ih, (List.perm_insertionSort (fun a b : String => a ≤ b) p.2).length_eq]

/-- The platform-count total counts claims with namespace and deployment,
plus the IBM deployments. -/
theorem count_by_platform_total (env : HiveEnv) :
    (get_cluster_count_by_platform env).1
      = ((get_all_cluster_data env).clusterclaims.filter
          (fun c => c.specNamespace.getD "" != ""
            && ((get_all_cluster_data env).deployments_by_namespace
                (c.specNamespace.getD "")).isSome)).length
        + (get_all_cluster_data env).ibm_clusters.length := by
  simp only [get_cluster_count_by_platform]
  rw [count_platform_ibm_foldl, count_platform_foldl]
  simp [platformStatsTotal]

/-- The state-count total counts claims with namespace and deployment,
plus the IBM deployments. -/
theorem count_by_state_total (env : HiveEnv) :
    (get_cluster_count_by_state env).1
      = ((get_all_cluster_data env).clusterclaims.filter
          (fun c => c.specNamespace.getD "" != ""
            && ((get_all_cluster_data env).deployments_by_namespace
                (c.specNamespace.getD "")).isSome)).length
        + (get_all_cluster_data env).ibm_clusters.length := by
  simp only [get_cluster_count_by_state]
  rw [stateStatsTotal_sort, count_state_ibm_foldl, count_state_foldl]
  simp [stateStatsTotal]

/-- The unfiltered listing total counts claims with a non-empty namespace,
plus the IBM deployments (whether or not details are requested). -/
theorem list_all_clusters_total_eq (env : HiveEnv) (include_details : Bool) :
    listClustersTotal (list_all_clusters env noFilters include_details)
      = ((get_all_cluster_data env).clusterclaims.filter
          (fun c => c.specNamespace.getD "" != "")).length
        + (get_all_cluster_data env).ibm_clusters.length := by
  have h : listClustersTotal (list_all_clusters env noFilters include_details)
      = (List.insertionSort byName (build_all_clusters
          (get_all_cluster_data env).clusterclaims
          (get_all_cluster_data env).deployments_by_namespace
          (get_all_cluster_data env).ibm_clusters)).length := by
    cases include_details <;> rfl
  rw [h, (List.perm_insertionSort byName _).length_eq]
  exact build_all_clusters_length _ _ _

/-- Filtering with a stronger predicate yields at most as many elements. -/
theorem length_filter_mono {α : Type} (p q : α → Bool) (l : List α)
    (himp : ∀ x ∈ l, p x = true → q x = true) :
    (l.filter p).length ≤ (l.filter q).length := by
  induction l with
  | nil => simp
  | cons a t ih =>
    have ht := ih (fun x hx => himp x (List.mem_cons_of_mem a hx))
    by_cases hpa : p a = true
    · have hqa := himp a (List.mem_cons_self a t) hpa
      simp only [List.filter_cons, hpa, hqa, if_true, List.length_cons]
      omega
    · by_cases hqa : q a = true <;>
        simp only [List.filter_cons, hpa, hqa, if_false, if_true, Bool.false_eq_true,
          List.length_cons] <;> omega

/-- Filtering with a strictly stronger predicate (witnessed by an element
satisfying only the weaker one) yields strictly fewer elements. -/
theorem length_filter_lt {α : Type} (p q : α → Bool) (l : List α)
    (himp : ∀ x ∈ l, p x = true → q x = true)
    (x : α) (hx : x ∈ l) (hqx : q x = true) (hpx : p x = false) :
    (l.filter p).length < (l.filter q).length := by
  induction l with
  | nil => cases hx
  | cons a t ih =>
    have himpt : ∀ y ∈ t, p y = true → q y = true :=
      fun y hy => himp y (List.mem_cons_of_mem a hy)
    by_cases hqa : q a = true
    · by_cases hpa : p a = true
      · have hxt : x ∈ t := by
          rcases List.mem_cons.mp hx with hh | hh
          · subst hh
            rw [hpa] at hpx
            cases hpx
          · exact hh
        have := ih himpt hxt
        simp only [List.filter_cons, hpa, hqa, if_true, List.length_cons]
        omega
      · have hmono := length_filter_mono p q t himpt
        simp only [List.filter_cons, hpa, hqa, if_true, Bool.false_eq_true, if_false,
          List.length_cons]
        omega
    · have hpa : ¬ p a = true := fun hpa => hqa (himp a (List.mem_cons_self a t) hpa)
      have hxt : x ∈ t := by
        rcases List.mem_cons.mp hx with hh | hh
        · subst hh
          exact absurd hqx hqa
        · exact hh
      have := ih himpt hxt
      simp only [List.filter_cons, hpa, hqa, Bool.false_eq_true, if_false]
      omega

/-- Claim C10: a claim whose target namespace has no deployment record is
counted by neither `get_cluster_count_by_platform` nor
`get_cluster_count_by_state` (both skip claims with a missing deployment),
even though `list_all_clusters` includes a ClusterView for it; hence for
any fleet containing such a claim both count totals are strictly smaller
than the unfiltered listing total. -/
theorem counts_skip_claims_without_deployment (env : HiveEnv)
    (h : ∃ claim ∈ (get_all_cluster_data env).clusterclaims,
        claim.specNamespace.getD "" ≠ ""
        ∧ (get_all_cluster_data env).deployments_by_namespace
            (claim.specNamespace.getD "") = none) :
    (get_cluster_count_by_platform env).1
        < listClustersTotal (list_all_clusters env noFilters false)
    ∧ (get_cluster_count_by_state env).1
        < listClustersTotal (list_all_clusters env noFilters false) := by
  obtain ⟨claim, hmem, hns, hdep⟩ := h
  have hlt : ((get_all_cluster_data env).clusterclaims.filter
        (fun c => c.specNamespace.getD "" != ""
          && ((get_all_cluster_data env).deployments_by_namespace
              (c.specNamespace.getD "")).isSome)).length
      < ((get_all_cluster_data env).clusterclaims.filter
          (fun c => c.specNamespace.getD "" != "")).length := by
    refine length_filter_lt _ _ _ ?_ claim hmem ?_ ?_
    · intro c _ hc
      simp only [Bool.and_eq_true] at hc
      exact hc.1
    · simp [hns]
    · simp [hns, hdep]
  rw [count_by_platform_total, count_by_state_total, list_all_clusters_total_eq]
  exact ⟨by omega, by omega⟩

/-- Witness for C10 at a concrete fleet: one claim with namespace `"ns1"`
and no deployment anywhere gives count totals 0 against listing total 1. -/
theorem counts_skip_claims_without_deployment_witness :
    (get_cluster_count_by_platform envPendingClaim).1
        < listClustersTotal (list_all_clusters envPendingClaim noFilters false)
    ∧ (get_cluster_count_by_state envPendingClaim).1
        < listClustersTotal (list_all_clusters envPendingClaim noFilters false) :=
  counts_skip_claims_without_deployment envPendingClaim
    ⟨claimNs1, by decide, by decide, by decide⟩

end ClusterMonitor
